import Mathlib

/-!
Verification development for the `ceport` diagnostic-reporting library.

The definitions below are a shallow embedding of the Rust sources:
source text content is modelled as the list of its bytes (`List Nat`),
fallible operations (assertion failures, `expect` aborts, out-of-bounds
vector indexing and `usize` underflow panics) return `Option`/`Except`,
and the global `OnceLock` registries are modelled by explicit state
passing.
-/

namespace Ceport

/-- Byte value of the line-feed character recognised by `ParsedFile::new`. -/
def lineFeed : Nat := 10

/-- A (line, column) pair, both 1-based: `Location` in `render/files.rs`. -/
structure Location where
  lines : Nat
  cols : Nat
deriving DecidableEq, Repr

/-- A source file with its line-break index: `ParsedFile` in `render/files.rs`. -/
structure ParsedFile where
  line_break_offsets : List Nat
  file_name : String
  content : List Nat
deriving DecidableEq, Repr

/-- Embeds `ParsedFile::new`: records the offset of every 0x0A byte of the content. -/
def ParsedFile.new (file_name : String) (content : List Nat) : ParsedFile :=
  { line_break_offsets :=
      content.enum.filterMap (fun p => if p.2 = lineFeed then some p.1 else none)
    file_name := file_name
    content := content }

/-- The scan loop of `ParsedFile::do_location`, iterating over the enumerated
line-break offsets.  The Rust loop returns only when `offset <= o` and
`idx != 0`; in that branch the column expression
`offset - breaks[idx - 1] - 1` underflows (a `usize` panic) whenever
`offset <= breaks[idx - 1]`, which is modelled as `none` — the enclosing
render call aborts either way. -/
def do_location_go (breaks : List Nat) (offset : Nat) : List (Nat × Nat) → Option Location
  | [] => none
  | (idx, o) :: rest =>
    if offset ≤ o ∧ idx ≠ 0 then
      if breaks.getD (idx - 1) 0 + 1 ≤ offset then
        some { lines := idx + 1, cols := offset - breaks.getD (idx - 1) 0 - 1 + 1 }
      else none
    else do_location_go breaks offset rest

/-- Embeds `ParsedFile::do_location`.  `none` models an aborting call: either
the `None` return that `ParsedFile::location` feeds to `expect`, or the
`usize` underflow panic inside the loop. -/
def ParsedFile.do_location (f : ParsedFile) (offset : Nat) : Option Location :=
  if f.line_break_offsets = [] then
    some { lines := 1, cols := offset + 1 }
  else
    do_location_go f.line_break_offsets offset f.line_break_offsets.enum

/-- Embeds `ParsedFile::location`: resolves both ends of a byte range; `none`
models the `expect` abort. -/
def ParsedFile.location (f : ParsedFile) (range : Nat × Nat) : Option (Location × Location) := do
  let start ← f.do_location range.1
  let stop ← f.do_location range.2
  pure (start, stop)

/-- Embeds `ParsedFile::as_str`: the bytes of the requested 1-based line.
`none` models the two assertion failures, the out-of-bounds vector index
`line_break_offsets[lines]`, and an invalid slice range. -/
def ParsedFile.as_str (f : ParsedFile) (lines : Nat) : Option (List Nat) :=
  if lines = 0 then none
  else
    let lines := lines - 1
    if lines < f.line_break_offsets.length + 1 then
      if f.line_break_offsets = [] then some f.content
      else if lines = 0 then some (f.content.take (f.line_break_offsets.getD 0 0))
      else
        match f.line_break_offsets.get? (lines - 1), f.line_break_offsets.get? lines with
        | some a, some b =>
          if a + 1 ≤ b ∧ b ≤ f.content.length then
            some ((f.content.take b).drop (a + 1))
          else none
        | _, _ => none
    else none

/-- A simple in-memory source manager: `SourceCodes` in `render/files.rs`. -/
structure SourceCodes where
  files : List ParsedFile
deriving DecidableEq, Repr

/-- Embeds `SourceCodes::add`: appends a parsed file and returns its id. -/
def SourceCodes.add (s : SourceCodes) (name : String) (content : List Nat) :
    SourceCodes × Nat :=
  ({ files := s.files ++ [ParsedFile.new name content] }, s.files.length)

/-- Embeds `Files::to_location` for `SourceCodes`; `none` models the file-id
assertion and the location aborts. -/
def SourceCodes.to_location (s : SourceCodes) (id : Nat) (range : Nat × Nat) :
    Option (Location × Location) := do
  let f ← s.files.get? id
  f.location range

/-- Embeds `Files::as_str` for `SourceCodes`. -/
def SourceCodes.as_str (s : SourceCodes) (id : Nat) (lines : Nat) : Option (List Nat) := do
  let f ← s.files.get? id
  f.as_str lines

/-- Embeds `Files::to_file_name` for `SourceCodes`. -/
def SourceCodes.to_file_name (s : SourceCodes) (id : Nat) : Option String :=
  (s.files.get? id).map ParsedFile.file_name

/-- Reporting level of `diagnostic.rs`: `Bug = 1`, `Error = 2`, `Warn = 3`. -/
inductive Level where
  | Bug
  | Error
  | Warn
deriving DecidableEq, Repr

/-- The discriminant values assigned by the Rust enum declaration, as read by
`u8::from` in `InMemoryCached::enabled`. -/
def Level.toU8 : Level → Nat
  | .Bug => 1
  | .Error => 2
  | .Warn => 3

instance : Inhabited Level := ⟨Level.Error⟩

/-- Embeds `impl Default for Level`, which picks `Error`. -/
def Level.default : Level := Level.Error

/-- The compilation stage of `diagnostic.rs`; the static string parameters are
modelled as `String`. -/
inductive Stage where
  | NoStage
  | Parsing (name : String)
  | Semantic (name : String)
  | CodeGen (name : String)
  | Custom (stage : String) (target : String)
deriving DecidableEq, Repr

/-- Embeds `impl Default for Stage`, which picks `None` (named `NoStage` here). -/
def Stage.default : Stage := Stage.NoStage

/-- Optional numeric diagnostic code: `Code(pub usize)` of `diagnostic.rs`. -/
structure Code where
  val : Nat
deriving DecidableEq, Repr

/-- Label display style of `diagnostic.rs`. -/
inductive LabelStyle where
  | Primary
  | Secondary
  | Tertiary
  | Quaternary
deriving DecidableEq, Repr

/-- A styled label of `diagnostic.rs`: file id, byte range, style, content. -/
structure Label where
  file : Nat
  range : Nat × Nat
  style : LabelStyle
  content : String
deriving DecidableEq, Repr

/-- A diagnostic of `diagnostic.rs`: optional code, message, labels, notes. -/
structure Diagnostic where
  code : Option Code := none
  message : String := ""
  labels : List Label := []
  notes : List String := []
deriving DecidableEq, Repr

/-- The in-memory fifo caching queue of `cache.rs`.  The `HashSet` of enabled
stages is modelled as a list queried by membership; the mutex-guarded
`VecDeque` is a list whose head is the front of the queue. -/
structure InMemoryCached where
  level : Level := Level.default
  stages : List Stage := []
  max_length : Nat := 0
  fifo : List (Stage × Level × Diagnostic) := []
deriving DecidableEq, Repr

/-- Embeds `InMemoryCached::new`: only `max_length` departs from the default. -/
def InMemoryCached.new (max_length : Nat) : InMemoryCached :=
  { max_length := max_length }

/-- Embeds `InMemoryCached::enable_level`. -/
def InMemoryCached.enable_level (c : InMemoryCached) (level : Level) : InMemoryCached :=
  { c with level := level }

/-- Embeds `InMemoryCached::enable_stage` (a `HashSet::insert`). -/
def InMemoryCached.enable_stage (c : InMemoryCached) (stage : Stage) : InMemoryCached :=
  { c with stages := if stage ∈ c.stages then c.stages else stage :: c.stages }

/-- Embeds `InMemoryCached::enabled`: when the diagnostic's level discriminant
does not exceed the configured one, answer whether its stage was enabled;
otherwise `false`. -/
def InMemoryCached.enabled (c : InMemoryCached) (stage : Stage) (level : Level) : Bool :=
  if ¬ (c.level.toU8 < level.toU8) then decide (stage ∈ c.stages) else false

/-- Embeds `InMemoryCached::cache`.  The second component is the warning
message logged when the queue is full (`log::warn!`); the diagnostic is then
dropped and the state is returned unchanged. -/
def InMemoryCached.cache (c : InMemoryCached) (stage : Stage) (level : Level)
    (diagnostic : Diagnostic) : InMemoryCached × Option String :=
  if c.enabled stage level then
    if c.fifo.length < c.max_length then
      ({ c with fifo := c.fifo ++ [(stage, level, diagnostic)] }, none)
    else
      (c, some "ceport: in-memory caching is full")
  else
    (c, none)

/-- Embeds `InMemoryCached::pop`: `VecDeque::pop_front`. -/
def InMemoryCached.pop (c : InMemoryCached) :
    Option (Stage × Level × Diagnostic) × InMemoryCached :=
  (c.fifo.head?, { c with fifo := c.fifo.tail })

/-- Embeds `OnceLock::set`: succeeds only on an unset cell, and a failing call
leaves the previously stored value untouched. -/
def OnceLock.set {α : Type} (st : Option α) (v : α) : Option α × Bool :=
  match st with
  | none => (some v, true)
  | some w => (some w, false)

/-- Embeds `set_caching` of `cache.rs` (generic over the installed `Caching`
implementation): a `OnceLock::set` whose error is fed to `expect`, which
aborts with the message below. -/
def set_caching {α : Type} (st : Option α) (renderer : α) :
    Option α × Except String Unit :=
  let p := OnceLock.set st renderer
  (p.1, if p.2 then Except.ok () else Except.error "call set_renderer twice.")

/-- Embeds `get_caching` of `cache.rs`: aborts when nothing was installed. -/
def get_caching {α : Type} (st : Option α) : Except String α :=
  match st with
  | some v => Except.ok v
  | none => Except.error "call set_caching firstly to set the global caching instance."

/-- Embeds `set_renderer` of `diagnostic.rs` (generic over the installed
`GlobalRenderer`): identical install-once discipline on its own `OnceLock`. -/
def set_renderer {α : Type} (st : Option α) (renderer : α) :
    Option α × Except String Unit :=
  let p := OnceLock.set st renderer
  (p.1, if p.2 then Except.ok () else Except.error "call set_renderer twice.")

/-- Embeds `get_renderer` of `diagnostic.rs`: falls back to the static
terminal renderer when nothing was installed. -/
def get_renderer {α : Type} (st : Option α) (term_renderer : α) : α :=
  match st with
  | some v => v
  | none => term_renderer

namespace Render

/-- Reporting level used by the `render` module variant (`write_level` in
`render/term.rs` matches these five constructors). -/
inductive Level where
  | Bug
  | Error
  | Warning
  | Note
  | Help
deriving DecidableEq, Repr

/-- A labelled byte region with a message.  The struct definition of this
variant is absent from `src/`; its shape (a `range` and a `message` field)
is reconstructed from its uses in `render/term.rs`. -/
structure Region where
  range : Nat × Nat
  message : String
deriving DecidableEq, Repr

/-- A label of the `render` module variant: one primary region plus secondary
regions, scoped to one file id.  The struct definition is absent from
`src/`; the shape is reconstructed from its uses in `render/term.rs`
(`label.id`, `label.primary.range`, `label.primary.message`,
`label.secondary`). -/
structure Label where
  id : Nat
  primary : Region
  secondary : List Region
deriving DecidableEq, Repr

/-- A diagnostic of the `render` module variant.  The struct definition is
absent from `src/`; the shape is reconstructed from its uses in
`render/term.rs` (`diagnostic.level`, `.code`, `.message`, `.nodes`,
`.labels`). -/
structure Diagnostic where
  level : Level := Level.Error
  code : Option Nat := none
  message : String := ""
  nodes : List String := []
  labels : List Label := []
deriving DecidableEq, Repr

/-- One entry of the `multiline_lables` map of `write_file_snippet`: the
column, the optional message (`None` for an "open" marker, `Some` for a
"close" marker) and the sequential multi-line index. -/
structure MultiEntry where
  col : Nat
  message : Option String
  index : Nat
deriving DecidableEq, Repr

/-- Set insertion for the `HashSet` of rendered line numbers. -/
def setInsert (l : List Nat) (x : Nat) : List Nat :=
  if x ∈ l then l else l ++ [x]

/-- Insertion with replacement for the `HashMap` of inline labels
(`HashMap::insert` overwrites: last write wins per line). -/
def mapInsert {β : Type} (m : List (Nat × β)) (k : Nat) (v : β) : List (Nat × β) :=
  match m with
  | [] => [(k, v)]
  | (k0, v0) :: rest => if k0 = k then (k, v) :: rest else (k0, v0) :: mapInsert rest k v

/-- Append one entry to the per-line vector of the `multiline_lables` map
(`entry(..).or_insert(vec![]).push(..)`). -/
def mapPush (m : List (Nat × List MultiEntry)) (k : Nat) (e : MultiEntry) :
    List (Nat × List MultiEntry) :=
  match m with
  | [] => [(k, [e])]
  | (k0, es) :: rest =>
    if k0 = k then (k0, es ++ [e]) :: rest else (k0, es) :: mapPush rest k e

/-- Lookup in the `multiline_lables` map; a missing line has no entries. -/
def mapGet (m : List (Nat × List MultiEntry)) (k : Nat) : List MultiEntry :=
  match m with
  | [] => []
  | (k0, es) :: rest => if k0 = k then es else mapGet rest k

/-- The mutable state threaded through `write_file_snippet` while it
classifies the regions of one label. -/
structure SnippetState where
  lines : List Nat
  inline_labels : List (Nat × ((Location × Location) × String × Bool))
  multiline_lables : List (Nat × List MultiEntry)
  multilines : Nat
  max_lines : Nat
deriving DecidableEq, Repr

/-- Embeds the body of the `for region in &label.secondary` loop of
`write_file_snippet`: an inline region overwrites the line's inline label;
a multi-line region records an open marker at its start line and a close
marker (with the message) at its end line. -/
def processSecondary (files : SourceCodes) (id : Nat) (st : SnippetState)
    (region : Region) : Option SnippetState := do
  let loc ← files.to_location id region.range
  let st := { st with
    max_lines := if loc.2.lines > st.max_lines then loc.2.lines else st.max_lines
    lines := setInsert (setInsert st.lines loc.1.lines) loc.2.lines }
  if loc.1.lines = loc.2.lines then
    pure { st with
      inline_labels := mapInsert st.inline_labels loc.1.lines (loc, region.message, false) }
  else
    pure { st with
      multiline_lables :=
        mapPush
          (mapPush st.multiline_lables loc.1.lines
            { col := loc.1.cols, message := none, index := st.multilines })
          loc.2.lines
          { col := loc.2.cols, message := some region.message, index := st.multilines }
      multilines := st.multilines + 1 }

/-- The per-label render plan computed by `write_file_snippet` before any
line is printed: the sorted rendered line numbers, the two annotation maps,
the multi-line counter, the running maximum line and the gutter width
(`max_lines.to_string().len()`). -/
structure RenderPlan where
  lines : List Nat
  inline_labels : List (Nat × ((Location × Location) × String × Bool))
  multiline_lables : List (Nat × List MultiEntry)
  multilines : Nat
  max_lines : Nat
  prefix_width : Nat
deriving DecidableEq, Repr

/-- The state of `Term::write_file_snippet` after the primary region has been
classified and before the secondary loop runs.  Note the primary multi-line
branch of the source pushes BOTH markers keyed by `location.start.lines`,
so that branch is embedded exactly as written; secondary regions
(`processSecondary`) key the close marker by `location.end.lines`. -/
def initialState (loc : Location × Location) (primaryMessage : String) : SnippetState :=
  let st0 : SnippetState :=
    { lines := setInsert (setInsert [] loc.1.lines) loc.2.lines
      inline_labels := []
      multiline_lables := []
      multilines := 0
      max_lines := loc.2.lines }
  if loc.1.lines = loc.2.lines then
    { st0 with
      inline_labels := mapInsert st0.inline_labels loc.1.lines (loc, primaryMessage, true) }
  else
    { st0 with
      multiline_lables :=
        mapPush
          (mapPush st0.multiline_lables loc.1.lines
            { col := loc.1.cols, message := none, index := st0.multilines })
          loc.1.lines
          { col := loc.2.cols, message := some primaryMessage, index := st0.multilines }
      multilines := st0.multilines + 1 }

/-- Embeds the layout phase of `Term::write_file_snippet`: resolve and
classify the primary region (`initialState`), run the secondary loop
(`processSecondary`), then sort the rendered lines and take the gutter
width from `max_lines.to_string().len()`. -/
def write_file_snippet (files : SourceCodes) (label : Label) : Option RenderPlan := do
  let loc ← files.to_location label.id label.primary.range
  let st ← label.secondary.foldlM (processSecondary files label.id)
    (initialState loc label.primary.message)
  pure
    { lines := st.lines.insertionSort (· ≤ ·)
      inline_labels := st.inline_labels
      multiline_lables := st.multiline_lables
      multilines := st.multilines
      max_lines := st.max_lines
      prefix_width := (Nat.repr st.max_lines).length }

/-- Space padding used in the note gutter. -/
def spaces (n : Nat) : String := String.mk (List.replicate n ' ')

/-- Embeds `Term::write_notes`: one output line per element of
`diagnostic.nodes`. -/
def write_notes (prefix_width : Nat) (d : Diagnostic) : List String :=
  d.nodes.map (fun note => spaces prefix_width ++ " = " ++ note)

/-- Embeds `Term::write_snippets`: for EVERY label, lay out its file snippet
and then emit the diagnostic's notes.  Returns the per-label plans and the
emitted note lines in order. -/
def write_snippets (files : SourceCodes) (d : Diagnostic) :
    Option (List RenderPlan × List String) :=
  d.labels.foldlM
    (fun acc label => do
      let plan ← write_file_snippet files label
      pure (acc.1 ++ [plan], acc.2 ++ write_notes plan.prefix_width d))
    ([], [])

/-- Number of "open" markers (no message) recorded at a line. -/
def countOpens (plan : RenderPlan) (line : Nat) : Nat :=
  (mapGet plan.multiline_lables line).countP (fun e => e.message.isNone)

/-- Number of "close" markers (message present) recorded at a line. -/
def countCloses (plan : RenderPlan) (line : Nat) : Nat :=
  (mapGet plan.multiline_lables line).countP (fun e => e.message.isSome)

/-- Specification-side list of the resolved end-line numbers of a list of
regions, in order; `none` when any region fails to resolve. -/
def endLinesList (files : SourceCodes) (id : Nat) : List Region → Option (List Nat)
  | [] => some []
  | r :: rs => do
    let loc ← files.to_location id r.range
    let rest ← endLinesList files id rs
    pure (loc.2.lines :: rest)

/-- Specification-side list of the resolved end-line numbers of every region
of one label (primary first, then the secondaries). -/
def labelEndLines (files : SourceCodes) (label : Label) : Option (List Nat) :=
  endLinesList files label.id (label.primary :: label.secondary)

end Render

/-- Fuel-driven helper for `digitCount`; any fuel of at least `n` gives the
decimal digit count of `n`. -/
def digitCountAux : Nat → Nat → Nat
  | 0, _ => 1
  | fuel + 1, n => if n < 10 then 1 else digitCountAux fuel (n / 10) + 1

/-- Specification-side decimal digit count of a natural number. -/
def digitCount (n : Nat) : Nat := digitCountAux n n

/-- Specification-side maximum of a list of naturals. -/
def natMax (l : List Nat) : Nat := l.foldl max 0

/-- Specification-side reconstruction of a byte offset from a `Location`,
per the spec's column formula: line 1 holds offset `column - 1`; line
`k > 1` holds offset `break[k - 2] + column`. -/
def reconstructOffset (f : ParsedFile) (loc : Location) : Option Nat :=
  if loc.lines = 1 then some (loc.cols - 1)
  else (f.line_break_offsets.get? (loc.lines - 2)).map (fun b => b + loc.cols)

/-- Embeds `pushAll`: feed a list of diagnostics to `InMemoryCached::cache`
one by one, keeping the state. -/
def pushAll (c : InMemoryCached) (stage : Stage) (level : Level)
    (ds : List Diagnostic) : InMemoryCached :=
  ds.foldl (fun acc d => (acc.cache stage level d).1) c

/-- Pop `n` diagnostics off the queue front, collecting the results in
order. -/
def drain : InMemoryCached → Nat → List (Stage × Level × Diagnostic)
  | _, 0 => []
  | c, n + 1 =>
    match c.pop with
    | (some x, c2) => x :: drain c2 n
    | (none, _) => []

/-! Concrete fixtures used by the claim theorems below.

`srcABC` holds one file with content bytes "ab\ncd\nef\n"
(line breaks at offsets 2, 5 and 8), `src10` holds one file of ten
"x\n" lines (line breaks at the odd offsets 1, 3, ..., 19). -/

/-- Fixture: one registered file with content "ab\ncd\nef\n". -/
def srcABC : SourceCodes :=
  { files := [ParsedFile.new "demo" [97, 98, 10, 99, 100, 10, 101, 102, 10]] }

/-- Fixture: a primary label spanning line 2 to line 3 of `srcABC`
(byte range 3..6). -/
def multiLabel : Render.Label :=
  { id := 0, primary := { range := (3, 6), message := "m" }, secondary := [] }

/-- Fixture: an inline primary label on line 2 of `srcABC` (byte range 3..4). -/
def inlineLabel : Render.Label :=
  { id := 0, primary := { range := (3, 4), message := "im" }, secondary := [] }

/-- Fixture: an inline primary label plus a SECONDARY region spanning line 2
to line 3 of `srcABC`. -/
def secLabel : Render.Label :=
  { id := 0, primary := { range := (3, 4), message := "p" },
    secondary := [{ range := (3, 6), message := "s" }] }

/-- Fixture: a diagnostic with two labels and one note. -/
def d6 : Render.Diagnostic := { nodes := ["n1"], labels := [inlineLabel, inlineLabel] }

/-- Fixture: one registered file of ten "x\n" lines. -/
def src10 : SourceCodes :=
  { files := [ParsedFile.new "ten" (List.flatten (List.replicate 10 [120, 10]))] }

/-- Fixture: an inline label on line 2 of `src10`. -/
def labelA7 : Render.Label :=
  { id := 0, primary := { range := (2, 3), message := "a" }, secondary := [] }

/-- Fixture: an inline label on line 10 of `src10`. -/
def labelB7 : Render.Label :=
  { id := 0, primary := { range := (18, 19), message := "b" }, secondary := [] }

/-- Fixture: a diagnostic whose two labels end on lines 2 and 10. -/
def d7 : Render.Diagnostic := { labels := [labelA7, labelB7] }

/-- Fixture: the render plan `write_file_snippet` computes for `inlineLabel`
against `srcABC`. -/
def planInline : Render.RenderPlan :=
  { lines := [2]
    inline_labels :=
      [(2, (({ lines := 2, cols := 1 }, { lines := 2, cols := 2 }), "im", true))]
    multiline_lables := []
    multilines := 0
    max_lines := 2
    prefix_width := 1 }

/-- Fixture: a single stored diagnostic for the capacity-1 fifo witness. -/
def w8init : List Diagnostic := [{ message := "d1" }]

/-- Fixture: the dropped diagnostic for the capacity-1 fifo witness. -/
def w8last : Diagnostic := { message := "d2" }

theorem digitCountAux_fuel_irrel :
    ∀ (f1 f2 n : Nat), n ≤ f1 → n ≤ f2 → digitCountAux f1 n = digitCountAux f2 n := by
  intro f1
  induction f1 with
  | zero =>
    intro f2 n h1 _
    interval_cases n
    cases f2 <;> simp [digitCountAux]
  | succ f1 ih =>
    intro f2 n h1 h2
    by_cases hn : n < 10
    · cases f2 with
      | zero =>
        have : n = 0 := by omega
        subst this
        simp [digitCountAux]
      | succ f2 => simp [digitCountAux, hn]
    · cases f2 with
      | zero => omega
      | succ f2 =>
        simp only [digitCountAux, hn, if_false]
        have hd : n / 10 < n := Nat.div_lt_self (by omega) (by decide)
        rw [ih f2 (n / 10) (by omega) (by omega)]

theorem digitCount_unfold (n : Nat) :
    digitCount n = if n < 10 then 1 else digitCount (n / 10) + 1 := by
  by_cases hn : n < 10
  · unfold digitCount
    cases n with
    | zero => simp [digitCountAux]
    | succ m => simp [digitCountAux, hn]
  · have hpos : 0 < n := by omega
    obtain ⟨m, rfl⟩ : ∃ m, n = m + 1 := ⟨n - 1, by omega⟩
    unfold digitCount
    simp only [digitCountAux, hn, if_false]
    have hd : (m + 1) / 10 < m + 1 := Nat.div_lt_self (by omega) (by decide)
    rw [digitCountAux_fuel_irrel m ((m + 1) / 10) ((m + 1) / 10) (by omega) (by omega)]

theorem length_toDigitsCore :
    ∀ (f n : Nat), n < f → (Nat.toDigitsCore 10 f n []).length = digitCount n := by
  intro f
  induction f with
  | zero => omega
  | succ f ih =>
    intro n hn
    rw [digitCount_unfold]
    by_cases h10 : n < 10
    · have hdiv : n / 10 = 0 := Nat.div_eq_of_lt h10
      simp [Nat.toDigitsCore, hdiv, h10]
    · have hdiv : n / 10 ≠ 0 := by
        intro h
        have h2 : n < 10 := by
          have h3 := Nat.div_add_mod n 10
          have h4 : n % 10 < 10 := Nat.mod_lt n (by decide)
          omega
        omega
      simp only [Nat.toDigitsCore, hdiv, if_false, h10]
      rw [Nat.toDigitsCore_lens_eq]
      have hd : n / 10 < n := Nat.div_lt_self (by omega) (by decide)
      rw [ih (n / 10) (by omega)]

theorem repr_length_eq_digitCount (n : Nat) : (Nat.repr n).length = digitCount n := by
  show (Nat.toDigits 10 n).asString.length = digitCount n
  rw [show (Nat.toDigits 10 n).asString.length = (Nat.toDigits 10 n).length from rfl]
  exact length_toDigitsCore (n + 1) n (Nat.lt_succ_self n)

namespace Render

theorem if_gt_eq_max (a b : Nat) : (if b > a then b else a) = max a b := by
  rw [Nat.max_def]
  split <;> split <;> omega

theorem initialState_max_lines (loc : Location × Location) (msg : String) :
    (initialState loc msg).max_lines = loc.2.lines := by
  rw [initialState]
  split <;> rfl

theorem processSecondary_some (files : SourceCodes) (id : Nat) (st : SnippetState)
    (r : Region) (st2 : SnippetState)
    (h : processSecondary files id st r = some st2) :
    ∃ loc, files.to_location id r.range = some loc
      ∧ st2.max_lines = max st.max_lines loc.2.lines := by
  rcases hbind : files.to_location id r.range with _ | loc
  · rw [processSecondary, hbind] at h
    simp at h
  · refine ⟨loc, rfl, ?_⟩
    rw [processSecondary, hbind] at h
    simp only [Option.bind_eq_bind, Option.some_bind] at h
    split at h <;>
    · cases h
      rw [← if_gt_eq_max]

theorem foldlM_processSecondary (files : SourceCodes) (id : Nat) :
    ∀ (regions : List Region) (st1 st2 : SnippetState),
      List.foldlM (processSecondary files id) st1 regions = some st2 →
      ∃ ends : List Nat,
        endLinesList files id regions = some ends
        ∧ st2.max_lines = ends.foldl max st1.max_lines := by
  intro regions
  induction regions with
  | nil =>
    intro st1 st2 h
    simp only [List.foldlM_nil, Option.pure_def, Option.some.injEq] at h
    exact ⟨[], rfl, by rw [← h]; rfl⟩
  | cons r rs ih =>
    intro st1 st2 h
    rw [List.foldlM_cons] at h
    rcases Option.bind_eq_some.mp h with ⟨stMid, hstMid, hrest⟩
    obtain ⟨loc, hloc, hmax⟩ := processSecondary_some files id st1 r stMid hstMid
    obtain ⟨ends, hends, hmax2⟩ := ih stMid st2 hrest
    refine ⟨loc.2.lines :: ends, ?_, ?_⟩
    · simp [endLinesList, hloc, hends]
    · rw [hmax2, hmax]
      simp [List.foldl_cons]

end Render

theorem pushAll_cons (c : InMemoryCached) (stage : Stage) (level : Level)
    (d : Diagnostic) (ds : List Diagnostic) :
    pushAll c stage level (d :: ds) = pushAll (c.cache stage level d).1 stage level ds := rfl

theorem pushAll_enabled (stage : Stage) (level : Level) :
    ∀ (ds : List Diagnostic) (c : InMemoryCached),
      c.enabled stage level = true →
      pushAll c stage level ds =
        { c with fifo := c.fifo ++
            ((ds.map (fun d => (stage, level, d))).take
              (c.max_length - c.fifo.length)) } := by
  intro ds
  induction ds with
  | nil =>
    intro c h
    simp [pushAll]
  | cons d ds ih =>
    intro c h
    by_cases hlt : c.fifo.length < c.max_length
    · have step : (c.cache stage level d).1
          = { c with fifo := c.fifo ++ [(stage, level, d)] } := by
        simp [InMemoryCached.cache, h, hlt]
      have h2 : ({ c with fifo := c.fifo ++ [(stage, level, d)] }).enabled stage level
          = true := h
      rw [pushAll_cons, step, ih _ h2]
      congr 1
      simp only [List.length_append, List.length_cons, List.length_nil, List.map_cons]
      have harith : c.max_length - c.fifo.length
          = (c.max_length - (c.fifo.length + (0 + 1))) + 1 := by omega
      rw [harith, List.take_succ_cons, List.append_assoc]
      rfl
    · have step : (c.cache stage level d).1 = c := by
        simp [InMemoryCached.cache, h, hlt]
      rw [pushAll_cons, step, ih c h]
      have h0 : c.max_length - c.fifo.length = 0 := by omega
      simp [h0]

theorem drain_eq_take : ∀ (n : Nat) (c : InMemoryCached), drain c n = c.fifo.take n := by
  intro n
  induction n with
  | zero => intro c; simp [drain]
  | succ n ih =>
    intro c
    rcases hf : c.fifo with _ | ⟨x, xs⟩
    · simp [drain, InMemoryCached.pop, hf]
    · simp [drain, InMemoryCached.pop, hf, ih]

end Ceport


namespace Ceport

/-- C1: the claim states that for a source containing at least one line
break, every byte offset on the first line (at most the first break offset)
maps to line 1 with column `offset + 1`.  The code instead aborts for every
such offset: with exactly one break the scan falls through and returns
`None` (fed to `expect`), and with two or more breaks the column
subtraction underflows.  Shown below on "a\nb" (break at 1, offsets 0 and
1) and on "a\nb\nc" (breaks at 1 and 3, offset 0). -/
theorem c1_first_line_offsets_abort :
    ((ParsedFile.new "f" [97, 10, 98]).line_break_offsets = [1]
      ∧ (ParsedFile.new "f" [97, 10, 98]).do_location 0 = none
      ∧ (ParsedFile.new "f" [97, 10, 98]).do_location 1 = none)
    ∧ ((ParsedFile.new "h" [97, 10, 98, 10, 99]).line_break_offsets = [1, 3]
      ∧ (ParsedFile.new "h" [97, 10, 98, 10, 99]).do_location 0 = none) := by
  decide

/-- C2: the claim states `to_location` aborts exactly when the offset
exceeds the content length.  Both directions fail on the code: offsets 0
and 3 of the 3-byte source "a\nb" abort although they are within the
content, and offset 5 of the break-free 2-byte source "ab" succeeds with
line 1 column 6 although it exceeds the length. -/
theorem c2_abort_not_iff_out_of_range :
    ((ParsedFile.new "f" [97, 10, 98]).content.length = 3
      ∧ (ParsedFile.new "f" [97, 10, 98]).do_location 0 = none
      ∧ (ParsedFile.new "f" [97, 10, 98]).do_location 3 = none)
    ∧ ((ParsedFile.new "g" [97, 98]).content.length = 2
      ∧ (ParsedFile.new "g" [97, 98]).do_location 5
          = some { lines := 1, cols := 6 }) := by
  decide

/-- C3: the claim states every valid offset yields a `Location` that
reconstructs to the same byte offset.  On "a\nb\nc" the valid offset 0
yields no `Location` at all (the call aborts), so the round trip is
unattainable there; where a `Location` is produced (offset 2, line 2
column 1) the spec reconstruction does return the offset. -/
theorem c3_round_trip_broken_on_first_line :
    ((ParsedFile.new "h" [97, 10, 98, 10, 99]).content.length = 5
      ∧ (ParsedFile.new "h" [97, 10, 98, 10, 99]).do_location 0 = none)
    ∧ ((ParsedFile.new "h" [97, 10, 98, 10, 99]).do_location 2
          = some { lines := 2, cols := 1 }
      ∧ reconstructOffset (ParsedFile.new "h" [97, 10, 98, 10, 99])
          { lines := 2, cols := 1 } = some 2) := by
  decide

/-- C4: the claim states `line_text(n)` succeeds for every `n` from 1 to
the line count (breaks + 1) and that the concatenated lines reproduce the
content.  On "a\nb" (one break, line count 2) line 1 is returned but line 2
panics on the out-of-bounds vector index `line_break_offsets[1]`, so the
round trip cannot even be formed. -/
theorem c4_last_line_text_aborts :
    (ParsedFile.new "f" [97, 10, 98]).line_break_offsets.length + 1 = 2
    ∧ (ParsedFile.new "f" [97, 10, 98]).as_str 1 = some [97]
    ∧ (ParsedFile.new "f" [97, 10, 98]).as_str 2 = none := by
  decide

/-- C5: the claim states every multi-line label records one open annotation
at its start line and one close annotation (with the message) at its end
line.  For the primary multi-line label `multiLabel` (lines 2 to 3) the
code records BOTH markers at start line 2 and nothing at end line 3, while
the secondary multi-line region of `secLabel` (same span) is laid out as
the claim states — the primary branch is the odd one out.  Each tuple is
(opens at 2, closes at 2, opens at 3, closes at 3). -/
theorem c5_primary_close_marker_at_start_line :
    ((Render.write_file_snippet srcABC multiLabel).map
        (fun p => (Render.countOpens p 2, Render.countCloses p 2,
          Render.countOpens p 3, Render.countCloses p 3)) = some (1, 1, 0, 0))
    ∧ ((Render.write_file_snippet srcABC secLabel).map
        (fun p => (Render.countOpens p 2, Render.countCloses p 2,
          Render.countOpens p 3, Render.countCloses p 3)) = some (1, 0, 0, 1)) := by
  decide

/-- C6: the claim states a diagnostic with L labels and N notes produces
exactly N note lines.  `write_snippets` calls `write_notes` once per label,
so the two-label one-note diagnostic `d6` produces 2 note lines, not 1. -/
theorem c6_notes_emitted_per_label :
    d6.labels.length = 2 ∧ d6.nodes.length = 1
    ∧ (Render.write_snippets srcABC d6).map (fun p => p.2.length) = some 2 := by
  decide

end Ceport

namespace Ceport

/-- C7 counterexample: the claim states the gutter width used for a
diagnostic equals the decimal digit count of the largest rendered line
number across ALL its labels.  Diagnostic `d7` has labels ending on lines
2 and 10, so the digit count of the overall maximum is 2, yet the snippet
block of the first label is laid out with gutter width 1: the width is
computed per label, not per diagnostic. -/
theorem c7_gutter_width_counterexample :
    (Render.write_snippets src10 d7).map
      (fun p => (p.1.map Render.RenderPlan.prefix_width,
        digitCount (natMax (p.1.map Render.RenderPlan.max_lines))))
      = some ([1, 2], 2) := by
  decide

/-- C7 amended: the gutter width of the snippet block laid out for one
label equals the decimal digit count of the largest resolved end-line
number among that label's own regions (primary and secondaries), not of
the maximum across the whole diagnostic. -/
theorem c7_gutter_width_per_label (files : SourceCodes) (label : Render.Label)
    (plan : Render.RenderPlan)
    (h : Render.write_file_snippet files label = some plan) :
    ∃ ends : List Nat,
      Render.labelEndLines files label = some ends
        ∧ plan.prefix_width = digitCount (natMax ends) := by
  rcases hp : files.to_location label.id label.primary.range with _ | loc
  · rw [Render.write_file_snippet, hp] at h
    simp at h
  · rw [Render.write_file_snippet, hp] at h
    simp only [Option.bind_eq_bind, Option.some_bind] at h
    rcases Option.bind_eq_some.mp h with ⟨st, hst, hplan⟩
    obtain ⟨ends, hends, hmax⟩ :=
      Render.foldlM_processSecondary files label.id label.secondary
        (Render.initialState loc label.primary.message) st hst
    simp only [Option.pure_def, Option.some.injEq] at hplan
    subst hplan
    refine ⟨loc.2.lines :: ends, ?_, ?_⟩
    · simp [Render.labelEndLines, Render.endLinesList, hp, hends]
    · show (Nat.repr st.max_lines).length = digitCount (natMax (loc.2.lines :: ends))
      rw [repr_length_eq_digitCount, hmax, Render.initialState_max_lines]
      congr 1
      rw [natMax, List.foldl_cons, Nat.zero_max]

/-- C7 amended witness: the amended gutter-width law evaluated on the
concrete inline label fixture (end line 2, one decimal digit). -/
theorem c7_gutter_width_per_label_witness :
    Render.write_file_snippet srcABC inlineLabel = some planInline
    ∧ ∃ ends : List Nat,
        Render.labelEndLines srcABC inlineLabel = some ends
          ∧ planInline.prefix_width = digitCount (natMax ends) :=
  ⟨by decide, c7_gutter_width_per_label srcABC inlineLabel planInline (by decide)⟩

end Ceport

namespace Ceport

/-- C8: starting from an empty `InMemoryCached` of capacity `k` whose
stage/level filter passes, pushing `k` diagnostics stores all of them in
push order; the (k+1)-th push returns the state unchanged together with
the capacity warning; pushing all `k + 1` in sequence still retains
exactly the first `k`; and popping `k` times returns them in push order. -/
theorem c8_fifo_capacity (lvl : Level) (sts : List Stage) (k : Nat) (stage : Stage)
    (level : Level) (init : List Diagnostic) (dLast : Diagnostic)
    (hlen : init.length = k)
    (hen : (InMemoryCached.mk lvl sts k []).enabled stage level = true) :
    (pushAll (InMemoryCached.mk lvl sts k []) stage level init).fifo
        = init.map (fun d => (stage, level, d))
    ∧ (pushAll (InMemoryCached.mk lvl sts k []) stage level init).cache stage level dLast
        = (pushAll (InMemoryCached.mk lvl sts k []) stage level init,
            some "ceport: in-memory caching is full")
    ∧ (pushAll (InMemoryCached.mk lvl sts k []) stage level (init ++ [dLast])).fifo
        = init.map (fun d => (stage, level, d))
    ∧ drain (pushAll (InMemoryCached.mk lvl sts k []) stage level init) k
        = init.map (fun d => (stage, level, d)) := by
  have hk : (init.map (fun d => (stage, level, d))).length = k := by
    rw [List.length_map, hlen]
  have htake : (init.map (fun d => (stage, level, d))).take k
      = init.map (fun d => (stage, level, d)) := by
    rw [← hk, List.take_length]
  have h1 := pushAll_enabled stage level init (InMemoryCached.mk lvl sts k []) hen
  simp only [List.nil_append, List.length_nil, Nat.sub_zero, htake] at h1
  have h2 := pushAll_enabled stage level (init ++ [dLast]) (InMemoryCached.mk lvl sts k []) hen
  simp only [List.nil_append, List.length_nil, Nat.sub_zero, List.map_append,
    List.map_cons, List.map_nil] at h2
  refine ⟨?_, ?_, ?_, ?_⟩
  · rw [h1]
  · rw [h1]
    have hen2 : (InMemoryCached.mk lvl sts k
        (init.map (fun d => (stage, level, d)))).enabled stage level = true := hen
    simp [InMemoryCached.cache, hen2, hk]
  · rw [h2, ← hk, List.take_left]
  · rw [drain_eq_take, h1]
    exact htake

/-- C8 witness: capacity 1 with an enabled parsing-free stage; the first
diagnostic is stored, the second is dropped with the warning, and one pop
returns the stored diagnostic. -/
theorem c8_fifo_capacity_witness :
    (w8init.length = 1
      ∧ (InMemoryCached.mk Level.Error [Stage.NoStage] 1 []).enabled Stage.NoStage
          Level.Error = true)
    ∧ ((pushAll (InMemoryCached.mk Level.Error [Stage.NoStage] 1 []) Stage.NoStage
            Level.Error w8init).fifo
          = w8init.map (fun d => (Stage.NoStage, Level.Error, d))
      ∧ (pushAll (InMemoryCached.mk Level.Error [Stage.NoStage] 1 []) Stage.NoStage
            Level.Error w8init).cache Stage.NoStage Level.Error w8last
          = (pushAll (InMemoryCached.mk Level.Error [Stage.NoStage] 1 []) Stage.NoStage
              Level.Error w8init, some "ceport: in-memory caching is full")
      ∧ (pushAll (InMemoryCached.mk Level.Error [Stage.NoStage] 1 []) Stage.NoStage
            Level.Error (w8init ++ [w8last])).fifo
          = w8init.map (fun d => (Stage.NoStage, Level.Error, d))
      ∧ drain (pushAll (InMemoryCached.mk Level.Error [Stage.NoStage] 1 []) Stage.NoStage
            Level.Error w8init) 1
          = w8init.map (fun d => (Stage.NoStage, Level.Error, d))) :=
  ⟨⟨by decide, by decide⟩,
    c8_fifo_capacity Level.Error [Stage.NoStage] 1 Stage.NoStage Level.Error w8init w8last
      (by decide) (by decide)⟩

/-- C9: once `set_caching` (respectively `set_renderer`) has succeeded on
an empty registry, every further installation attempt returns the
`OnceLock` state unchanged together with the aborting error, and the
getters still return the originally installed instance. -/
theorem c9_install_once {α β : Type} (v1 v2 : α) (w1 w2 : β) (t : β)
    (st : Option α) (st2 : Option β)
    (h1 : set_caching none v1 = (st, Except.ok ()))
    (h2 : set_renderer none w1 = (st2, Except.ok ())) :
    set_caching st v2 = (st, Except.error "call set_renderer twice.")
    ∧ get_caching st = Except.ok v1
    ∧ set_renderer st2 w2 = (st2, Except.error "call set_renderer twice.")
    ∧ get_renderer st2 t = w1 := by
  have e1 : st = some v1 := by
    have h3 := congrArg Prod.fst h1
    simpa [set_caching, OnceLock.set] using h3.symm
  have e2 : st2 = some w1 := by
    have h4 := congrArg Prod.fst h2
    simpa [set_renderer, OnceLock.set] using h4.symm
  subst e1
  subst e2
  exact ⟨rfl, rfl, rfl, rfl⟩

/-- C9 witness: installing concrete `InMemoryCached` instances once
succeeds; the second attempt on each registry fails and the original
instance is still returned. -/
theorem c9_install_once_witness :
    (set_caching none (InMemoryCached.new 3)
        = (some (InMemoryCached.new 3), Except.ok ())
      ∧ set_renderer none (InMemoryCached.new 5)
        = (some (InMemoryCached.new 5), Except.ok ()))
    ∧ (set_caching (some (InMemoryCached.new 3)) (InMemoryCached.new 4)
        = (some (InMemoryCached.new 3), Except.error "call set_renderer twice.")
      ∧ get_caching (some (InMemoryCached.new 3)) = Except.ok (InMemoryCached.new 3)
      ∧ set_renderer (some (InMemoryCached.new 5)) (InMemoryCached.new 6)
        = (some (InMemoryCached.new 5), Except.error "call set_renderer twice.")
      ∧ get_renderer (some (InMemoryCached.new 5)) (InMemoryCached.new 7)
        = InMemoryCached.new 5) :=
  ⟨⟨rfl, rfl⟩,
    c9_install_once (InMemoryCached.new 3) (InMemoryCached.new 4) (InMemoryCached.new 5)
      (InMemoryCached.new 6) (InMemoryCached.new 7) (some (InMemoryCached.new 3))
      (some (InMemoryCached.new 5)) rfl rfl⟩

/-- C10: `InMemoryCached::enabled` answers `true` only when the stage is a
member of the enabled-stages set, whatever the levels are; a queue built by
`new(k)` (and hence also the `Default` one, which is `new 0`) has an empty
stage set, so `enabled` is always `false` and `cache` stores nothing. -/
theorem c10_enabled_requires_stage :
    (∀ (c : InMemoryCached) (stage : Stage) (level : Level),
        c.enabled stage level = true → stage ∈ c.stages)
    ∧ (∀ (k : Nat) (stage : Stage) (level : Level),
        (InMemoryCached.new k).enabled stage level = false)
    ∧ (∀ (k : Nat) (stage : Stage) (level : Level) (d : Diagnostic),
        (InMemoryCached.new k).cache stage level d = (InMemoryCached.new k, none)) := by
  have hfalse : ∀ (k : Nat) (stage : Stage) (level : Level),
      (InMemoryCached.new k).enabled stage level = false := by
    intro k stage level
    rw [InMemoryCached.enabled]
    split <;> simp [InMemoryCached.new]
  refine ⟨?_, hfalse, ?_⟩
  · intro c stage level h
    rw [InMemoryCached.enabled] at h
    split at h
    · exact of_decide_eq_true h
    · cases h
  · intro k stage level d
    rw [InMemoryCached.cache, hfalse]
    simp

/-- C10 witness: a queue that did receive `enable_stage` answers `true` and
therefore has the stage in its set; the conditional conjunct of the theorem
is discharged at that concrete input. -/
theorem c10_enabled_requires_stage_witness :
    Stage.NoStage ∈ (InMemoryCached.mk Level.Error [Stage.NoStage] 1 []).stages :=
  c10_enabled_requires_stage.1 (InMemoryCached.mk Level.Error [Stage.NoStage] 1 [])
    Stage.NoStage Level.Error (by decide)

end Ceport
